import Mathlib

/-!
Verification of the note-index database layer (`electron/main/database/Table.ts`):
the record model `RagnoteDBEntry`, the chunked batch writer `RagnoteTable.add`, the
result mapping shared by `search` and `filter`, the table materialization
`getTableAsArray`, the existence check `isFileInDB`, the repopulation orchestrator
`maybeRePopulateTable`, and the point operations `updateNoteInTable` and
`removeTreeFromTable`.

Modelling conventions: the external vector store (LanceDB) is a list of rows in
insertion order; the embedding function bound to the `content` column is a parameter
`embed`; wall-clock timestamps (`new Date()`) are `Nat` parameters; a store call that
may raise is driven by an explicit failure oracle.  The filter strings the layer
builds over `DatabaseFields` are embedded as the small inductive `FilterExpr`
together with the store-side evaluation of each expression.
-/

set_option autoImplicit false

namespace Ragnote

/-- Numeric embedding vector (`Float32Array` in the source, values abstracted). -/
abbrev Vec := List Int

/-- The record model `RagnoteDBEntry` of Table.ts.  `vector` is optional on the
caller side and is populated by the embedding function bound to the table;
`timeadded` (a `Date`) is modelled as a `Nat` tick. -/
structure RagnoteDBEntry where
  notepath : String
  vector : Option Vec
  content : String
  subnoteindex : Nat
  timeadded : Nat
deriving Repr, DecidableEq

/-- Raw row returned by the store (`Record<string, unknown>`): any of the five
schema fields may be absent, an absent key being `none`. -/
structure RawRecord where
  notepath : Option String
  vector : Option Vec
  content : Option String
  subnoteindex : Option Nat
  timeadded : Option Nat
deriving Repr, DecidableEq

/-- Function `convertRawDBResultToRagnoteDBEntry`: the row is accepted only when all
five `DatabaseFields` keys are present in the record, otherwise `null` is returned. -/
def convertRawDBResultToRagnoteDBEntry (record : RawRecord) : Option RagnoteDBEntry :=
  match record.notepath, record.vector, record.content, record.subnoteindex,
      record.timeadded with
  | some np, some v, some c, some si, some t => some ⟨np, some v, c, si, t⟩
  | _, _, _, _, _ => none

/-- Result mapping shared by `RagnoteTable.search` and `RagnoteTable.filter`:
`rawResults.map(convertRawDBResultToRagnoteDBEntry)` followed by the bare cast
`as RagnoteDBEntry[]`.  The line that would filter out `null` entries is commented
out in the source, so a malformed row is surfaced to the caller as a `null`
element (here `none`). -/
def searchResultMapping (rawResults : List RawRecord) : List (Option RagnoteDBEntry) :=
  rawResults.map convertRawDBResultToRagnoteDBEntry

/-- Filter expressions this layer builds over `DatabaseFields`:
`content != ''`, `content = ''` and `notepath = '<path>'`. -/
inductive FilterExpr where
  | contentNotEmpty : FilterExpr
  | contentEmpty : FilterExpr
  | notePathEq : String → FilterExpr
deriving Repr, DecidableEq

/-- Store-side evaluation of a filter expression on a row. -/
def FilterExpr.eval : FilterExpr → RagnoteDBEntry → Bool
  | .contentNotEmpty, e => !(e.content == "")
  | .contentEmpty, e => e.content == ""
  | .notePathEq p, e => e.notepath == p

/-- How a facade call fails: accessing `this.table` while it is still undefined
(the not-initialized failure), or the underlying store call raising. -/
inductive DBError where
  | notInitialized : DBError
  | storeFailure : DBError
deriving Repr, DecidableEq

/-- The store populates the embedding column from `content` on insert (the
`EnhancedEmbeddingFunction` bound to the table by `initialize`). -/
def populateVector (embed : String → Vec) (e : RagnoteDBEntry) : RagnoteDBEntry :=
  { e with vector := some (embed e.content) }

/-- One successful `table.add(chunk)` store call: the chunk is appended, each row
getting its embedding column populated. -/
def storeAdd (embed : String → Vec) (st : List RagnoteDBEntry)
    (chunk : List RagnoteDBEntry) : List RagnoteDBEntry :=
  st ++ chunk.map (populateVector embed)

/-- Method `RagnoteTable.filter(filterString, limit)`: the rows matching the filter,
capped at `limit`, in store order.  Stored rows carry all five schema columns, so
the result mapping of `convertRawDBResultToRagnoteDBEntry` is the identity on them;
the mapping itself is modelled separately by `searchResultMapping`. -/
def tableFilter (st : List RagnoteDBEntry) (f : FilterExpr) (limit : Nat) :
    List RagnoteDBEntry :=
  (st.filter f.eval).take limit

/-- Method `RagnoteTable.delete(filter)`: every row matching the filter is removed. -/
def tableDelete (st : List RagnoteDBEntry) (f : FilterExpr) : List RagnoteDBEntry :=
  st.filter (fun e => !(f.eval e))

/-- The chunking loop of `RagnoteTable.add`: `chunks.push(recordEntry.slice(i, i + 50))`
for `i = 0, 50, 100, ...` while `i < recordEntry.length` (`chunkSize = 50`). -/
def mkChunks : List RagnoteDBEntry → List (List RagnoteDBEntry)
  | [] => []
  | a :: l => ((a :: l).take 50) :: mkChunks (l.drop 49)
termination_by l => l.length
decreasing_by simp [List.length_drop]; omega

/-- One `await this.table.add(chunk)` call inside the batch loop; the failure oracle
decides whether the store call raises for the chunk at this loop index. -/
def tableAddCall (embed : String → Vec) (fails : Nat → Bool) (index : Nat)
    (st : List RagnoteDBEntry) (chunk : List RagnoteDBEntry) :
    Except DBError (List RagnoteDBEntry) :=
  if fails index then Except.error DBError.storeFailure
  else Except.ok (storeAdd embed st chunk)

/-- Outcome of one run of the batch writer: the final table rows, the chunks for
which a `table.add` store call was issued, and the fractions passed to
`onProgress`, in order. -/
structure AddOutcome where
  state : List RagnoteDBEntry
  attempted : List (List RagnoteDBEntry)
  progress : List ℚ
deriving Repr, DecidableEq

/-- The `for (const chunk of chunks)` loop of `RagnoteTable.add`: each store call is
wrapped in try/catch — an error is logged and the loop continues — then `index` is
incremented and `onProgress(index / totalChunks)` is invoked. -/
def addLoop (embed : String → Vec) (fails : Nat → Bool) (totalChunks : Nat) :
    Nat → List RagnoteDBEntry → List (List RagnoteDBEntry) → AddOutcome
  | _, st, [] => ⟨st, [], []⟩
  | index, st, chunk :: rest =>
    let stepped :=
      match tableAddCall embed fails index st chunk with
      | Except.ok s => s
      | Except.error _ => st
    let out := addLoop embed fails totalChunks (index + 1) stepped rest
    ⟨out.state, chunk :: out.attempted,
      ((index : ℚ) + 1) / (totalChunks : ℚ) :: out.progress⟩

/-- Method `RagnoteTable.add(data, onProgress?)`: slice the input into chunks of 50
and run the loop. -/
def addRun (embed : String → Vec) (fails : Nat → Bool) (st : List RagnoteDBEntry)
    (data : List RagnoteDBEntry) : AddOutcome :=
  let chunks := mkChunks data
  addLoop embed fails chunks.length 0 st chunks

/-- The full progress sequence `1/m, 2/m, ..., m/m` reported for `m` chunks. -/
def progressList (m : Nat) : List ℚ :=
  (List.range m).map (fun i : Nat => ((i : ℚ) + 1) / (m : ℚ))

/-- Function `getTableAsArray`, instrumented with the list of filter queries issued
(each query being its filter expression and its limit). -/
def getTableAsArray (st : List RagnoteDBEntry) :
    List RagnoteDBEntry × List (FilterExpr × Nat) :=
  let totalRows := st.length
  if totalRows = 0 then ([], [])
  else
    (tableFilter st FilterExpr.contentNotEmpty totalRows
        ++ tableFilter st FilterExpr.contentEmpty totalRows,
      [(FilterExpr.contentNotEmpty, totalRows), (FilterExpr.contentEmpty, totalRows)])

/-- Function `isFileInDB`, instrumented with the list of filter queries issued. -/
def isFileInDB (st : List RagnoteDBEntry) (filePath : String) (tableCount : Nat) :
    Bool × List (FilterExpr × Nat) :=
  if tableCount = 0 then (false, [])
  else
    (decide ((tableFilter st (FilterExpr.notePathEq filePath) tableCount).length > 0),
      [(FilterExpr.notePathEq filePath, tableCount)])

/-- A filesystem entry as produced by the external lister; only `path` is used in
this layer. -/
structure FileInfo where
  path : String
deriving Repr, DecidableEq

/-- Function `convertFileTypeToDBType`: read the file (the reader degrades to `""`
on failure and is modelled by the parameter `readF`), stamp `subnoteindex = 0` and
the current time. -/
def convertFileTypeToDBType (readF : String → String) (now : Nat) (file : FileInfo) :
    RagnoteDBEntry :=
  { notepath := file.path, vector := none, content := readF file.path,
    subnoteindex := 0, timeadded := now }

/-- Function `maybeRePopulateTable`: list the directory (the external
`GetFilesInfoList` result is the parameter `filesInfoList`), materialize the table,
keep the files whose path is not among the materialized note paths, convert them and
hand them to the batch writer.  The terminal `onProgress(1)` emitted after `add`
returns issues no store call and is not part of the writer's outcome. -/
def maybeRePopulateTable (embed : String → Vec) (fails : Nat → Bool)
    (readF : String → String) (now : Nat) (filesInfoList : List FileInfo)
    (st : List RagnoteDBEntry) : AddOutcome :=
  let tableArrayPaths := (getTableAsArray st).1.map (fun x => x.notepath)
  let filesToAdd :=
    (filesInfoList.filter (fun fileInfo => !(tableArrayPaths.contains fileInfo.path))).map
      (convertFileTypeToDBType readF now)
  addRun embed fails st filesToAdd

/-- Function `updateNoteInTable`: delete all rows at the path, then `add` a single
fresh record (`subnoteindex = 0`, timestamp taken between the delete and the
insert). -/
def updateNoteInTable (embed : String → Vec) (fails : Nat → Bool)
    (st : List RagnoteDBEntry) (filePath : String) (content : String) (now : Nat) :
    AddOutcome :=
  let afterDelete := tableDelete st (FilterExpr.notePathEq filePath)
  addRun embed fails afterDelete
    [{ notepath := filePath, vector := none, content := content, subnoteindex := 0,
       timeadded := now }]

/-- The delete loop of `removeTreeFromTable`: one `await dbTable.delete(...)` per
path with no try/catch.  Returns the delete calls issued, and either the final
state or the first raised error, which propagates to the caller and ends the loop. -/
def removeLoop (fails : String → Bool) (st : List RagnoteDBEntry) :
    List String → List String × Except DBError (List RagnoteDBEntry)
  | [] => ([], Except.ok st)
  | p :: ps =>
    if fails p then ([p], Except.error DBError.storeFailure)
    else
      let rest := removeLoop fails (tableDelete st (FilterExpr.notePathEq p)) ps
      (p :: rest.1, rest.2)

/-- Function `removeTreeFromTable`: flatten the tree (the external
`flattenFileInfoTree` result is the parameter `flattened`), map to paths, and delete
each path in turn. -/
def removeTreeFromTable (fails : String → Bool) (st : List RagnoteDBEntry)
    (flattened : List FileInfo) : List String × Except DBError (List RagnoteDBEntry) :=
  removeLoop fails st (flattened.map (fun x => x.path))

/-- Facade state: `this.table` is declared with a definite-assignment assertion
(`table!`) and stays undefined (`none`) until `initialize` has run. -/
structure RagnoteTableState where
  table : Option (List RagnoteDBEntry)
deriving Repr, DecidableEq

/-- Method `RagnoteTable.delete` as invoked on the facade: `this.table.delete(...)`
throws when the table is still undefined. -/
def deleteOp (self : RagnoteTableState) (f : FilterExpr) :
    Except DBError RagnoteTableState :=
  match self.table with
  | none => Except.error DBError.notInitialized
  | some st => Except.ok ⟨some (tableDelete st f)⟩

/-- Method `RagnoteTable.countRows` on the facade. -/
def countRowsOp (self : RagnoteTableState) : Except DBError Nat :=
  match self.table with
  | none => Except.error DBError.notInitialized
  | some st => Except.ok st.length

/-- A stored row rendered back as a raw record: every schema column is present. -/
def rawOfStored (e : RagnoteDBEntry) : RawRecord :=
  ⟨some e.notepath, e.vector, some e.content, some e.subnoteindex, some e.timeadded⟩

/-- Method `RagnoteTable.search` on the facade: `this.table.search(query)` throws
when the table is undefined; otherwise the store returns up to `limit` ranked raw
rows, which go through `searchResultMapping` (nearest-neighbor ranking is external;
rows are modelled in store order). -/
def searchOp (self : RagnoteTableState) (limit : Nat) :
    Except DBError (List (Option RagnoteDBEntry)) :=
  match self.table with
  | none => Except.error DBError.notInitialized
  | some st => Except.ok (searchResultMapping ((st.take limit).map rawOfStored))

/-- Method `RagnoteTable.filter` on the facade: `this.table.search(placeholder)`
throws when the table is undefined. -/
def filterOp (self : RagnoteTableState) (f : FilterExpr) (limit : Nat) :
    Except DBError (List RagnoteDBEntry) :=
  match self.table with
  | none => Except.error DBError.notInitialized
  | some st => Except.ok (tableFilter st f limit)

/-- Method `RagnoteTable.add` on the facade.  Building the chunks touches only the
argument; the sole use of `this.table` is the per-chunk `this.table.add(chunk)`
inside the try/catch.  Before `initialize` that access throws, the catch swallows
the error, the loop still increments `index` and invokes `onProgress`, and the call
resolves normally with the full progress sequence and no store write. -/
def addOp (embed : String → Vec) (fails : Nat → Bool) (self : RagnoteTableState)
    (data : List RagnoteDBEntry) : Except DBError (RagnoteTableState × List ℚ) :=
  match self.table with
  | none => Except.ok (self, progressList (mkChunks data).length)
  | some st =>
    let out := addRun embed fails st data
    Except.ok (⟨some out.state⟩, out.progress)

/-- Sample path used in concrete witnesses. -/
def samplePathA : String := "notes/a.md"

/-- Second sample path. -/
def samplePathB : String := "notes/b.md"

/-- Third sample path. -/
def samplePathC : String := "notes/c.md"

/-- Sample record with non-empty content. -/
def sampleEntry : RagnoteDBEntry :=
  { notepath := samplePathA, vector := none, content := "alpha", subnoteindex := 0,
    timeadded := 1 }

/-- Sample record with empty content. -/
def sampleEntryEmpty : RagnoteDBEntry :=
  { notepath := samplePathB, vector := none, content := "", subnoteindex := 0,
    timeadded := 2 }

/-- Sample raw row missing the vector column. -/
def rawMissingVector : RawRecord :=
  { notepath := some samplePathA, vector := none, content := some "alpha",
    subnoteindex := some 0, timeadded := some 1 }

/-- Failure oracle under which no store call fails. -/
def noFail : Nat → Bool := fun _ => false

/-- Failure oracle under which exactly the first chunk's store call fails. -/
def failsChunk0 : Nat → Bool := fun n => n == 0

/-- Path failure oracle under which exactly the delete of `samplePathB` fails. -/
def failsAtB : String → Bool := fun p => p == samplePathB

/-- Sample embedding function: the length of the text, as a one-entry vector. -/
def embedLen : String → Vec := fun s => [Int.ofNat s.length]

/-- Sample file listing entries. -/
def sampleFileA : FileInfo := ⟨samplePathA⟩

/-- Second sample file entry. -/
def sampleFileB : FileInfo := ⟨samplePathB⟩

/-- Third sample file entry. -/
def sampleFileC : FileInfo := ⟨samplePathC⟩

/-- Sample replacement content used in the update witness. -/
def sampleNewContent : String := "beta"

/-- Chunking the empty input produces no chunks. -/
theorem mkChunks_nil : mkChunks [] = [] := by
  simp [mkChunks]

/-- Unfolding equation of the chunking loop on a non-empty input. -/
theorem mkChunks_cons (a : RagnoteDBEntry) (l : List RagnoteDBEntry) :
    mkChunks (a :: l) = ((a :: l).take 50) :: mkChunks (l.drop 49) := by
  rw [mkChunks]

/-- Concatenating the chunks gives back the input: the chunks are contiguous and in
input order. -/
theorem mkChunks_join (l : List RagnoteDBEntry) : (mkChunks l).flatten = l := by
  induction l using mkChunks.induct with
  | case1 => simp [mkChunks_nil]
  | case2 a l ih =>
    rw [mkChunks_cons, List.flatten_cons, ih]
    have h : l.drop 49 = (a :: l).drop 50 := rfl
    rw [h, List.take_append_drop]

/-- The number of chunks is the ceiling of the input length divided by 50. -/
theorem mkChunks_length (l : List RagnoteDBEntry) :
    (mkChunks l).length = (l.length + 49) / 50 := by
  induction l using mkChunks.induct with
  | case1 => simp [mkChunks_nil]
  | case2 a l ih =>
    rw [mkChunks_cons]
    simp only [List.length_cons, ih, List.length_drop]
    omega

/-- Every chunk holds at most 50 records. -/
theorem mkChunks_chunk_le (l : List RagnoteDBEntry) :
    ∀ c ∈ mkChunks l, c.length ≤ 50 := by
  induction l using mkChunks.induct with
  | case1 => simp [mkChunks_nil]
  | case2 a l ih =>
    rw [mkChunks_cons]
    intro c hc
    rcases List.mem_cons.mp hc with h | h
    · subst h
      exact List.length_take_le 50 _
    · exact ih c h

/-- The batch loop issues exactly one store call per chunk, in order, regardless of
which calls fail. -/
theorem addLoop_attempted (embed : String → Vec) (fails : Nat → Bool) (t : Nat)
    (cs : List (List RagnoteDBEntry)) :
    ∀ (i : Nat) (st : List RagnoteDBEntry),
      (addLoop embed fails t i st cs).attempted = cs := by
  induction cs with
  | nil => intro i st; rfl
  | cons c rest ih =>
    intro i st
    simp only [addLoop, ih]

/-- The progress fractions reported by the batch loop, regardless of which store
calls fail. -/
theorem addLoop_progress (embed : String → Vec) (fails : Nat → Bool) (t : Nat)
    (cs : List (List RagnoteDBEntry)) :
    ∀ (i : Nat) (st : List RagnoteDBEntry),
      (addLoop embed fails t i st cs).progress
        = (List.range cs.length).map
            (fun j => (((i + j : Nat) : ℚ) + 1) / (t : ℚ)) := by
  induction cs with
  | nil => intro i st; simp [addLoop]
  | cons c rest ih =>
    intro i st
    simp only [addLoop, ih, List.length_cons]
    rw [List.range_succ_eq_map, List.map_cons, List.map_map]
    refine List.cons_eq_cons.mpr ⟨?_, ?_⟩
    · push_cast
      ring
    · refine List.map_congr_left (fun j hj => ?_)
      simp only [Function.comp_apply, Nat.succ_eq_add_one]
      push_cast
      ring

/-- The batch writer issues exactly the chunk list as store calls. -/
theorem addRun_attempted (embed : String → Vec) (fails : Nat → Bool)
    (st : List RagnoteDBEntry) (data : List RagnoteDBEntry) :
    (addRun embed fails st data).attempted = mkChunks data := by
  simp [addRun, addLoop_attempted]

/-- The batch writer reports the full progress sequence, regardless of failures. -/
theorem addRun_progress (embed : String → Vec) (fails : Nat → Bool)
    (st : List RagnoteDBEntry) (data : List RagnoteDBEntry) :
    (addRun embed fails st data).progress = progressList (mkChunks data).length := by
  simp [addRun, addLoop_progress, progressList]

/-- Length of the progress sequence. -/
theorem progressList_length (m : Nat) : (progressList m).length = m := by
  simp [progressList]

/-- The progress fractions are strictly increasing. -/
theorem progressList_pairwise (m : Nat) : (progressList m).Pairwise (· < ·) := by
  rcases Nat.eq_zero_or_pos m with h | h
  · subst h; simp [progressList]
  · have hm : (0 : ℚ) < (m : ℚ) := by exact_mod_cast h
    refine List.Pairwise.map _ (fun a b hab => ?_) (List.pairwise_lt_range m)
    have hab' : ((a : ℚ) + 1) < ((b : ℚ) + 1) := by
      have : (a : ℚ) < (b : ℚ) := by exact_mod_cast hab
      linarith
    exact div_lt_div_of_pos_right hab' hm

/-- A non-empty progress sequence ends at 1. -/
theorem progressList_getLast (m : Nat) (h : m ≠ 0) :
    (progressList m).getLast? = some 1 := by
  obtain ⟨k, rfl⟩ := Nat.exists_eq_succ_of_ne_zero h
  unfold progressList
  rw [List.range_succ, List.map_append, List.map_cons, List.map_nil,
    List.getLast?_concat]
  have hk : ((k : ℚ) + 1) ≠ 0 := by positivity
  rw [show (((k + 1 : Nat) : ℚ)) = ((k : ℚ) + 1) by push_cast; ring, div_self hk]

/-- When every store call succeeds, the batch loop appends the flattened chunks,
each row getting its embedding populated. -/
theorem addLoop_state_noFail (embed : String → Vec) (t : Nat)
    (cs : List (List RagnoteDBEntry)) :
    ∀ (i : Nat) (st : List RagnoteDBEntry),
      (addLoop embed noFail t i st cs).state
        = st ++ cs.flatten.map (populateVector embed) := by
  induction cs with
  | nil => intro i st; simp [addLoop]
  | cons c rest ih =>
    intro i st
    simp [addLoop, tableAddCall, noFail, storeAdd, ih, List.map_append,
      List.append_assoc]

/-- When every store call succeeds, the batch writer appends exactly the input
records, each with its embedding populated. -/
theorem addRun_state_noFail (embed : String → Vec) (st : List RagnoteDBEntry)
    (data : List RagnoteDBEntry) :
    (addRun embed noFail st data).state = st ++ data.map (populateVector embed) := by
  simp [addRun, addLoop_state_noFail, mkChunks_join]

/-- A filter query whose limit is the full table length returns every matching row. -/
theorem tableFilter_full (st : List RagnoteDBEntry) (f : FilterExpr) :
    tableFilter st f st.length = st.filter f.eval := by
  unfold tableFilter
  exact List.take_of_length_le (le_trans (List.length_filter_le _ _) (le_refl _))

/-- Every table row appears in the materialization: each row has either empty or
non-empty content, and each of the two queries is bounded by the full row count. -/
theorem getTableAsArray_mem (st : List RagnoteDBEntry) :
    ∀ e ∈ st, e ∈ (getTableAsArray st).1 := by
  intro e he
  have hne : st.length ≠ 0 := by
    cases st with
    | nil => cases he
    | cons a l => simp
  unfold getTableAsArray
  simp only [hne, if_false, List.mem_append, tableFilter_full]
  by_cases hc : e.content == ""
  · exact Or.inr (List.mem_filter.mpr ⟨he, hc⟩)
  · refine Or.inl (List.mem_filter.mpr ⟨he, ?_⟩)
    simp only [FilterExpr.eval]
    simp only [Bool.not_eq_true] at hc
    simp [hc]

/-- Every materialized row is a table row. -/
theorem getTableAsArray_subset (st : List RagnoteDBEntry) :
    ∀ e ∈ (getTableAsArray st).1, e ∈ st := by
  intro e he
  unfold getTableAsArray at he
  by_cases hne : st.length = 0
  · simp [hne] at he
  · simp only [hne, if_false, List.mem_append, tableFilter_full] at he
    rcases he with h | h
    · exact (List.mem_filter.mp h).1
    · exact (List.mem_filter.mp h).1

/-- Deleting by path equality leaves no row at that path. -/
theorem filter_tableDelete_self (st : List RagnoteDBEntry) (p : String) :
    (tableDelete st (FilterExpr.notePathEq p)).filter (fun e => e.notepath == p)
      = [] := by
  simp only [tableDelete, FilterExpr.eval, List.filter_filter]
  refine List.filter_eq_nil_iff.mpr (fun a _ => ?_)
  simp only [Bool.not_eq_true]
  cases hb : a.notepath == p <;> simp [hb]

/-- A bounded filter query returns a row exactly when a matching row exists, as
long as the bound is non-zero. -/
theorem tableFilter_nonempty_iff (st : List RagnoteDBEntry) (p : FilterExpr)
    (n : Nat) (hn : n ≠ 0) :
    0 < (tableFilter st p n).length ↔ ∃ e ∈ st, p.eval e = true := by
  unfold tableFilter
  rw [List.length_take]
  constructor
  · intro h
    have hpos : 0 < (st.filter p.eval).length := lt_of_lt_of_le h (min_le_right _ _)
    obtain ⟨e, hmem⟩ := List.exists_mem_of_length_pos hpos
    exact ⟨e, (List.mem_filter.mp hmem).1, (List.mem_filter.mp hmem).2⟩
  · intro ⟨e, he, hpe⟩
    have hpos : 0 < (st.filter p.eval).length :=
      List.length_pos_of_mem (List.mem_filter.mpr ⟨he, hpe⟩)
    omega

/-- A failing delete ends the loop of `removeTreeFromTable`: the calls issued are
exactly the paths up to and including the failing one, and the error is returned
to the caller. -/
theorem removeLoop_fail (fails : String → Bool) (paths : List String) :
    ∀ (st : List RagnoteDBEntry) (k : Nat) (hk : k < paths.length),
      (∀ p ∈ paths.take k, fails p = false) →
      fails (paths.get ⟨k, hk⟩) = true →
      removeLoop fails st paths
        = (paths.take (k + 1), Except.error DBError.storeFailure) := by
  induction paths with
  | nil =>
    intro st k hk
    exact absurd hk (by simp)
  | cons p ps ih =>
    intro st k hk hbefore hfail
    cases k with
    | zero =>
      simp only [List.get] at hfail
      simp [removeLoop, hfail]
    | succ k =>
      have hp : fails p = false := by
        refine hbefore p ?_
        rw [List.take_succ_cons]
        exact List.mem_cons_self p _
      have hbefore' : ∀ q ∈ ps.take k, fails q = false := by
        intro q hq
        refine hbefore q ?_
        rw [List.take_succ_cons]
        exact List.mem_cons_of_mem p hq
      have hk' : k < ps.length := Nat.lt_of_succ_lt_succ hk
      have hfail' : fails (ps.get ⟨k, hk'⟩) = true := hfail
      simp [removeLoop, hp, ih _ k hk' hbefore' hfail', List.take_succ_cons]

/-- C1: for a list of `N` records, `RagnoteTable.add` partitions it into
`ceil(N/50)` contiguous chunks of at most 50 records in input order, issues one
store write call per chunk, and invokes `onProgress` exactly `ceil(N/50)` times
with strictly increasing fractions ending at 1; on the empty list it issues zero
write calls and never invokes `onProgress`. -/
theorem add_chunking (embed : String → Vec) (fails : Nat → Bool)
    (st : List RagnoteDBEntry) (data : List RagnoteDBEntry) :
    (addRun embed fails st data).attempted = mkChunks data
    ∧ (mkChunks data).length = (data.length + 49) / 50
    ∧ (mkChunks data).flatten = data
    ∧ (∀ c ∈ mkChunks data, c.length ≤ 50)
    ∧ (addRun embed fails st data).progress.length = (data.length + 49) / 50
    ∧ (addRun embed fails st data).progress.Pairwise (· < ·)
    ∧ (data ≠ [] → (addRun embed fails st data).progress.getLast? = some 1)
    ∧ (data = [] → (addRun embed fails st data).attempted = []
        ∧ (addRun embed fails st data).progress = []) := by
  refine ⟨addRun_attempted embed fails st data, mkChunks_length data,
    mkChunks_join data, mkChunks_chunk_le data, ?_, ?_, ?_, ?_⟩
  · rw [addRun_progress, progressList_length, mkChunks_length]
  · rw [addRun_progress]
    exact progressList_pairwise _
  · intro h
    rw [addRun_progress]
    refine progressList_getLast _ ?_
    rw [mkChunks_length]
    have : data.length ≠ 0 := fun hc => h (List.length_eq_zero.mp hc)
    omega
  · intro h
    subst h
    rw [addRun_attempted, addRun_progress, mkChunks_nil]
    exact ⟨rfl, rfl⟩

/-- Witness for C1 at a concrete two-record input. -/
theorem add_chunking_witness :
    (addRun embedLen noFail [] [sampleEntry, sampleEntryEmpty]).progress.getLast?
        = some 1
    ∧ (addRun embedLen noFail [] [sampleEntry, sampleEntryEmpty]).attempted
        = mkChunks [sampleEntry, sampleEntryEmpty] := by
  have h := add_chunking embedLen noFail [] [sampleEntry, sampleEntryEmpty]
  exact ⟨h.2.2.2.2.2.2.1 (by simp), h.1⟩

/-- C2: when the store write of chunk `k` fails, the error is swallowed by the
per-chunk catch — `add` resolves rather than raising — every chunk write is still
attempted, and `onProgress` is still invoked for the failed chunk with its
fraction. -/
theorem add_fault_isolation (embed : String → Vec) (fails : Nat → Bool)
    (st : List RagnoteDBEntry) (data : List RagnoteDBEntry) (k : Nat)
    (hk : k < (mkChunks data).length) (hfail : fails k = true) :
    addOp embed fails ⟨some st⟩ data
        = Except.ok (⟨some (addRun embed fails st data).state⟩,
            (addRun embed fails st data).progress)
    ∧ (addRun embed fails st data).attempted = mkChunks data
    ∧ (addRun embed fails st data).progress.length = (mkChunks data).length
    ∧ (addRun embed fails st data).progress[k]?
        = some (((k : ℚ) + 1) / ((mkChunks data).length : ℚ)) := by
  refine ⟨rfl, addRun_attempted embed fails st data, ?_, ?_⟩
  · rw [addRun_progress, progressList_length]
  · rw [addRun_progress]
    unfold progressList
    rw [List.getElem?_map, List.getElem?_range hk]
    rfl

/-- Witness for C2: a one-chunk input whose single store write fails. -/
theorem add_fault_isolation_witness :
    (addRun embedLen failsChunk0 [] [sampleEntry]).attempted = mkChunks [sampleEntry]
    ∧ (addRun embedLen failsChunk0 [] [sampleEntry]).progress.length
        = (mkChunks [sampleEntry]).length := by
  have hk : 0 < (mkChunks [sampleEntry]).length := by
    rw [mkChunks_length]
    simp
  have h := add_fault_isolation embedLen failsChunk0 [] [sampleEntry] 0 hk (by decide)
  exact ⟨h.2.1, h.2.2.1⟩

/-- C3 (code bug): a raw row missing the `vector` field is not dropped by the
search/filter result mapping — the commented-out null filter and the bare cast
surface it to the caller as a `null` element. -/
theorem search_surfaces_malformed_row :
    searchResultMapping [rawMissingVector] = [none]
    ∧ searchResultMapping [rawMissingVector] ≠ [] := by
  exact ⟨rfl, by simp [searchResultMapping]⟩

/-- C4: rerunning the repopulate orchestrator on an unchanged directory listing,
after a first run in which every chunk was written successfully, issues zero store
write calls: the missing-file set recomputed from the live table is empty. -/
theorem repopulate_idempotent (embed : String → Vec) (readF : String → String)
    (now1 now2 : Nat) (files : List FileInfo) (st : List RagnoteDBEntry)
    (fails2 : Nat → Bool) :
    (maybeRePopulateTable embed fails2 readF now2 files
        (maybeRePopulateTable embed noFail readF now1 files st).state).attempted
      = [] := by
  set st1 := (maybeRePopulateTable embed noFail readF now1 files st).state
    with hst1def
  have hst1 : st1 = st ++ ((files.filter (fun fi =>
      !(((getTableAsArray st).1.map (fun x => x.notepath)).contains fi.path))).map
        (convertFileTypeToDBType readF now1)).map (populateVector embed) := by
    rw [hst1def]
    simp only [maybeRePopulateTable]
    rw [addRun_state_noFail]
  have hcov : ∀ fi ∈ files,
      fi.path ∈ (getTableAsArray st1).1.map (fun x => x.notepath) := by
    intro fi hfi
    by_cases hmem : fi.path ∈ (getTableAsArray st).1.map (fun x => x.notepath)
    · obtain ⟨e, he, hpe⟩ := List.mem_map.mp hmem
      have he1 : e ∈ st1 := by
        rw [hst1]
        exact List.mem_append_left _ (getTableAsArray_subset st e he)
      exact List.mem_map.mpr ⟨e, getTableAsArray_mem st1 e he1, hpe⟩
    · have hcontains : (((getTableAsArray st).1.map
          (fun x => x.notepath)).contains fi.path) = false := by
        simpa using hmem
      have hmem1 : populateVector embed (convertFileTypeToDBType readF now1 fi)
          ∈ st1 := by
        rw [hst1]
        refine List.mem_append_right _ ?_
        refine List.mem_map.mpr ⟨convertFileTypeToDBType readF now1 fi, ?_, rfl⟩
        refine List.mem_map.mpr ⟨fi, ?_, rfl⟩
        refine List.mem_filter.mpr ⟨hfi, ?_⟩
        rw [hcontains]
        rfl
      exact List.mem_map.mpr
        ⟨populateVector embed (convertFileTypeToDBType readF now1 fi),
          getTableAsArray_mem st1 _ hmem1, rfl⟩
  have hfilter : files.filter (fun fi =>
      !(((getTableAsArray st1).1.map (fun x => x.notepath)).contains fi.path))
        = [] := by
    refine List.filter_eq_nil_iff.mpr (fun fi hfi => ?_)
    simp only [Bool.not_eq_true, Bool.not_eq_true']
    simpa using hcov fi hfi
  show (maybeRePopulateTable embed fails2 readF now2 files st1).attempted = []
  simp only [maybeRePopulateTable]
  rw [hfilter, List.map_nil, addRun_attempted, mkChunks_nil]

/-- C9: with a zero table count, `isFileInDB` answers false and issues no filter
query. -/
theorem isFileInDB_empty_short_circuit (st : List RagnoteDBEntry)
    (filePath : String) :
    isFileInDB st filePath 0 = (false, []) := rfl

/-- C5: `updateNoteInTable` deletes every row at the path and inserts exactly one
record carrying the given content, sub-note index 0 and the update-time embedding
and timestamp; afterwards exactly one live row exists for the path, and its
timestamp is later than that of any prior row for the path. -/
theorem updateNote_delete_then_insert (embed : String → Vec) (fails : Nat → Bool)
    (st : List RagnoteDBEntry) (filePath noteContent : String) (now : Nat)
    (hok : fails 0 = false) (hfresh : ∀ e ∈ st, e.timeadded < now) :
    (updateNoteInTable embed fails st filePath noteContent now).state.filter
        (fun e => e.notepath == filePath)
      = [{ notepath := filePath, vector := some (embed noteContent),
           content := noteContent, subnoteindex := 0, timeadded := now }]
    ∧ ∀ e ∈ st, e.notepath = filePath → e.timeadded < now := by
  refine ⟨?_, fun e he _ => hfresh e he⟩
  have hchunks : mkChunks [{ notepath := filePath, vector := none, content := noteContent, subnoteindex := 0, timeadded := now }] = [[{ notepath := filePath, vector := none, content := noteContent, subnoteindex := 0, timeadded := now }]] := by
    rw [mkChunks_cons, List.take_of_length_le (by simp), List.drop_nil, mkChunks_nil]
  simp only [updateNoteInTable, addRun, hchunks]
  simp only [addLoop, tableAddCall, hok, Bool.false_eq_true, if_false, storeAdd,
    List.map_cons, List.map_nil, populateVector]
  rw [List.filter_append, filter_tableDelete_self]
  simp

/-- Witness for C5 at a concrete one-row table. -/
theorem updateNote_delete_then_insert_witness :
    (updateNoteInTable embedLen noFail [sampleEntry] samplePathA sampleNewContent
        5).state.filter (fun e => e.notepath == samplePathA)
      = [{ notepath := samplePathA, vector := some (embedLen sampleNewContent),
           content := sampleNewContent, subnoteindex := 0, timeadded := 5 }] :=
  (updateNote_delete_then_insert embedLen noFail [sampleEntry] samplePathA
    sampleNewContent 5 rfl (by decide)).1

/-- C6 counterexample: `add` invoked before `initialize` does not fail — the
per-chunk table access error is swallowed by the catch and the call resolves,
reporting full progress and writing nothing. -/
theorem add_uninitialized_resolves :
    addOp embedLen noFail { table := none } [sampleEntry]
        = Except.ok ({ table := none }, [(1 : ℚ)])
    ∧ addOp embedLen noFail { table := none } [sampleEntry]
        ≠ Except.error DBError.notInitialized := by
  have hone : progressList (mkChunks [sampleEntry]).length = [(1 : ℚ)] := by
    have hlen : (mkChunks [sampleEntry]).length = 1 := by
      rw [mkChunks_length]
      decide
    rw [hlen]
    norm_num [progressList, List.range_succ]
  refine ⟨?_, ?_⟩
  · show Except.ok (({ table := none } : RagnoteTableState),
        progressList (mkChunks [sampleEntry]).length) = _
    rw [hone]
  · show Except.ok (({ table := none } : RagnoteTableState),
        progressList (mkChunks [sampleEntry]).length) ≠ _
    simp

/-- C6 amended: before `initialize`, the facade operations `delete`, `search`,
`filter` and `countRows` fail with the not-initialized error, while `add` resolves
without error, reporting the full progress sequence and writing nothing. -/
theorem uninitialized_ops_fail (f : FilterExpr) (limit : Nat)
    (embed : String → Vec) (fails : Nat → Bool) (data : List RagnoteDBEntry) :
    deleteOp { table := none } f = Except.error DBError.notInitialized
    ∧ searchOp { table := none } limit = Except.error DBError.notInitialized
    ∧ filterOp { table := none } f limit = Except.error DBError.notInitialized
    ∧ countRowsOp { table := none } = Except.error DBError.notInitialized
    ∧ addOp embed fails { table := none } data
        = Except.ok ({ table := none }, progressList (mkChunks data).length) :=
  ⟨rfl, rfl, rfl, rfl, rfl⟩

/-- C7: table materialization is the union of exactly two filter queries — rows
with non-empty content and rows with empty content — each bounded by the current
row count, covering every table row; an empty table yields the empty list with no
query issued. -/
theorem getTableAsArray_two_query_union (st : List RagnoteDBEntry) :
    (getTableAsArray st
        = if st.length = 0 then ([], [])
          else (tableFilter st FilterExpr.contentNotEmpty st.length
                  ++ tableFilter st FilterExpr.contentEmpty st.length,
                [(FilterExpr.contentNotEmpty, st.length),
                 (FilterExpr.contentEmpty, st.length)]))
    ∧ ∀ e ∈ st, e ∈ (getTableAsArray st).1 :=
  ⟨rfl, getTableAsArray_mem st⟩

/-- Witness for C7 at a concrete two-row table. -/
theorem getTableAsArray_two_query_union_witness :
    sampleEntry ∈ (getTableAsArray [sampleEntry, sampleEntryEmpty]).1 :=
  (getTableAsArray_two_query_union [sampleEntry, sampleEntryEmpty]).2 sampleEntry
    (by simp)

/-- C8 counterexample: on a one-row table, `isFileInDB` issues exactly one filter
query — note-path equality — not the two-way content split the claim describes. -/
theorem isFileInDB_two_query_counterexample :
    isFileInDB [sampleEntry] samplePathA 1
        = (true, [(FilterExpr.notePathEq samplePathA, 1)])
    ∧ (isFileInDB [sampleEntry] samplePathA 1).2.length ≠ 2 := by
  refine ⟨?_, ?_⟩ <;> decide

/-- C8 amended: for a non-zero table count, `isFileInDB` issues a single filter
query restricted to the given path, bounded by the count, and returns true exactly
when some table row has that note path. -/
theorem isFileInDB_single_query (st : List RagnoteDBEntry) (filePath : String)
    (tableCount : Nat) (h : tableCount ≠ 0) :
    (isFileInDB st filePath tableCount).2
        = [(FilterExpr.notePathEq filePath, tableCount)]
    ∧ ((isFileInDB st filePath tableCount).1 = true
        ↔ ∃ e ∈ st, e.notepath = filePath) := by
  unfold isFileInDB
  rw [if_neg h]
  refine ⟨rfl, ?_⟩
  simp only [decide_eq_true_eq, gt_iff_lt]
  rw [tableFilter_nonempty_iff st _ tableCount h]
  constructor
  · intro ⟨e, he, hpe⟩
    exact ⟨e, he, by simpa [FilterExpr.eval] using hpe⟩
  · intro ⟨e, he, hpe⟩
    exact ⟨e, he, by simp [FilterExpr.eval, hpe]⟩

/-- Witness for C8 at a concrete table and count. -/
theorem isFileInDB_single_query_witness :
    (isFileInDB [sampleEntry] samplePathB 1).2
        = [(FilterExpr.notePathEq samplePathB, 1)] :=
  (isFileInDB_single_query [sampleEntry] samplePathB 1 (by decide)).1

/-- C10: `removeTreeFromTable` deletes sequentially with no error handling — when
the delete of the path at position `k` fails, the error propagates to the caller
and no delete call is issued for the remaining paths. -/
theorem removeTree_error_propagation (fails : String → Bool)
    (st : List RagnoteDBEntry) (flattened : List FileInfo) (k : Nat)
    (hk : k < (flattened.map (fun x => x.path)).length)
    (hbefore : ∀ p ∈ (flattened.map (fun x => x.path)).take k, fails p = false)
    (hfail : fails ((flattened.map (fun x => x.path)).get ⟨k, hk⟩) = true) :
    (removeTreeFromTable fails st flattened).1
        = (flattened.map (fun x => x.path)).take (k + 1)
    ∧ (removeTreeFromTable fails st flattened).2
        = Except.error DBError.storeFailure := by
  have h := removeLoop_fail fails (flattened.map (fun x => x.path)) st k hk
    hbefore hfail
  unfold removeTreeFromTable
  rw [h]
  exact ⟨rfl, rfl⟩

/-- Witness for C10: three files, the middle delete failing. -/
theorem removeTree_error_propagation_witness :
    (removeTreeFromTable failsAtB [sampleEntry]
        [sampleFileA, sampleFileB, sampleFileC]).1 = [samplePathA, samplePathB]
    ∧ (removeTreeFromTable failsAtB [sampleEntry]
        [sampleFileA, sampleFileB, sampleFileC]).2
        = Except.error DBError.storeFailure := by
  have h := removeTree_error_propagation failsAtB [sampleEntry]
    [sampleFileA, sampleFileB, sampleFileC] 1 (by decide) (by decide) (by decide)
  refine ⟨?_, h.2⟩
  rw [h.1]
  decide

end Ragnote
